import Mathlib

/-!
Verification of `renderer.py` from google-deepmind/nao_top10: a renderer that
turns NetHack TTY observations (character grid, color grids, special-flag
bitfields, cursor position) into RGB images.  The Python source is shallowly
embedded below: grids become `List (List Int)`, numpy operations become the
corresponding list operations, the pygame font backend becomes an abstract
pixel function, and the process-global tile cache becomes explicit state.
-/

/-- An RGB triple (each component a byte value). -/
def RGB := Nat × Nat × Nat

instance : DecidableEq RGB := by unfold RGB; infer_instance

instance : Inhabited RGB := ⟨(0, 0, 0)⟩

/-- `FOREGROUND_COLORS` from the source: the 16-entry terminal palette as
hex strings (dark variants first, then bright variants). -/
def FOREGROUND_COLORS : List String :=
  ["#000000", "#770000", "#007700", "#aa7700",
   "#000077", "#aa00aa", "#00aaaa", "#ffffff",
   "#888888", "#ff0000", "#00ff00", "#ffff00",
   "#0000ff", "#ff00ff", "#00ffff", "#ffffff"]

/-- `BACKGROUND_COLORS` from the source: the named special-situation
background colors, as an association list in source order. -/
def BACKGROUND_COLORS : List (String × String) :=
  [("cursor", "#555555"),
   ("corpse", "#0000aa"),
   ("invis", "#333333"),
   ("detect", "#333333"),
   ("pet", "#ffffff"),
   ("ridden", "#333333"),
   ("statue", "#333333"),
   ("objpile", "#333333"),
   ("bwlava", "#330000"),
   ("default", "#000000")]

/-- Value of one hexadecimal digit character, as accepted by Python
`int(-, 16)` for the strings appearing in this program. -/
def hexDigitVal (c : Char) : Option Nat :=
  if '0' ≤ c ∧ c ≤ '9' then some (c.toNat - '0'.toNat)
  else if 'a' ≤ c ∧ c ≤ 'f' then some (c.toNat - 'a'.toNat + 10)
  else if 'A' ≤ c ∧ c ≤ 'F' then some (c.toNat - 'A'.toNat + 10)
  else none

/-- Python `int(s, 16)`: parse a non-empty string of hex digits. -/
def parseHexNat (cs : List Char) : Option Nat :=
  match cs with
  | [] => none
  | _ =>
    cs.foldl (fun acc c =>
      match acc, hexDigitVal c with
      | some n, some d => some (16 * n + d)
      | _, _ => none) (some 0)

/-- Python `struct.unpack('4B', struct.pack('I', n))`: the four little-endian
bytes of a 32-bit unsigned integer, least significant first. -/
def struct_unpack_4B (n : Nat) : Nat × Nat × Nat × Nat :=
  (n % 256, n / 256 % 256, n / 65536 % 256, n / 16777216 % 256)

/-- `hex_string_to_color_tuple` from the source: strip the leading `#`,
parse the rest as a hex integer, unpack its little-endian bytes as
(blue, green, red, _) and return (red, green, blue).  `struct.pack('I', -)`
requires the value to fit in 32 bits. -/
def hex_string_to_color_tuple (hex_string : String) : Option RGB := do
  let color_three_bytes ← parseHexNat (hex_string.toList.drop 1)
  if color_three_bytes < 4294967296 then
    let (blue, green, red, _) := struct_unpack_4B color_three_bytes
    pure (red, green, blue)
  else none

/- Bitmask constants `MG_*` imported by the source from the NetHack bindings
(`nle._pynethack.nethack`); their values are the NetHack `display.h` glyph
modifier flags, not defined under src/. -/

/-- Modelled from the spec: the `corpse` status flag mask (NetHack `MG_CORPSE`). -/
def MG_CORPSE : Nat := 1

/-- Modelled from the spec: the `invisible` status flag mask (NetHack `MG_INVIS`). -/
def MG_INVIS : Nat := 2

/-- Modelled from the spec: the `detected` status flag mask (NetHack `MG_DETECT`). -/
def MG_DETECT : Nat := 4

/-- Modelled from the spec: the `pet` status flag mask (NetHack `MG_PET`). -/
def MG_PET : Nat := 8

/-- Modelled from the spec: the `ridden-mount` status flag mask (NetHack `MG_RIDDEN`). -/
def MG_RIDDEN : Nat := 16

/-- Modelled from the spec: the `statue` status flag mask (NetHack `MG_STATUE`). -/
def MG_STATUE : Nat := 32

/-- Modelled from the spec: the `object-pile` status flag mask (NetHack `MG_OBJPILE`). -/
def MG_OBJPILE : Nat := 64

/-- Modelled from the spec: the `black/white lava` status flag mask (NetHack `MG_BW_LAVA`). -/
def MG_BW_LAVA : Nat := 128

/-- `get_special_background` from the source: chained conditionals testing
the special bitfield against each flag mask in order. -/
def get_special_background (special : Nat) : String :=
  if special &&& MG_CORPSE ≠ 0 then "corpse"
  else if special &&& MG_INVIS ≠ 0 then "invis"
  else if special &&& MG_DETECT ≠ 0 then "detect"
  else if special &&& MG_PET ≠ 0 then "pet"
  else if special &&& MG_RIDDEN ≠ 0 then "ridden"
  else if special &&& MG_STATUE ≠ 0 then "statue"
  else if special &&& MG_OBJPILE ≠ 0 then "objpile"
  else if special &&& MG_BW_LAVA ≠ 0 then "bwlava"
  else "default"

/-- `represent_char` from the source: code 0 renders as a blank space and
the backtick renders as the digit 0; everything else passes through. -/
def represent_char (c : Nat) : Nat :=
  if c = 0 then (' ').toNat
  else if c = ('`').toNat then ('0').toNat
  else c

/-- The spec's priority list, written from the spec's words: an ordered list
of (mask, situation) pairs evaluated top to bottom, first non-zero AND wins,
`default` when none matches.  Used only to compare against
`get_special_background`. -/
def specPriorityList : List (Nat × String) :=
  [(MG_CORPSE, "corpse"), (MG_INVIS, "invis"), (MG_DETECT, "detect"),
   (MG_PET, "pet"), (MG_RIDDEN, "ridden"), (MG_STATUE, "statue"),
   (MG_OBJPILE, "objpile"), (MG_BW_LAVA, "bwlava")]

/-- The spec's resolver: earliest entry of `specPriorityList` whose mask ANDed
with the bitfield is non-zero, else `default`. -/
def resolveSpecialSpec (s : Nat) : String :=
  match specPriorityList.find? (fun p => s &&& p.1 ≠ 0) with
  | some p => p.2
  | none => "default"

/-- Integer grids (numpy 2-D int arrays) as a list of rows. -/
abbrev Grid := List (List Int)

/-- RGB grids (numpy N×M×3 arrays) as a list of rows of RGB triples. -/
abbrev ColorGrid := List (List RGB)

/-- numpy `np.clip(v, lo, hi)` on one element. -/
def np_clip (v lo hi : Int) : Int := min (max v lo) hi

/-- `self._colors_map[i]`: the palette entry at index `i` as an RGB triple
(the index is always pre-clipped into [0, 15] at every use site). -/
def _colors_map (i : Nat) : RGB :=
  ((FOREGROUND_COLORS[i]?).bind hex_string_to_color_tuple).getD (0, 0, 0)

/-- `self._bgcolors[k]`: the named special-background color as an RGB triple
(every key used by the program is present in the table). -/
def _bgcolors (k : String) : RGB :=
  ((BACKGROUND_COLORS.lookup k).bind hex_string_to_color_tuple).getD (0, 0, 0)

/-- `self._specials_map`: the 256-entry table built at construction time,
entry `s` holding the background color for bitfield value `s`. -/
def _specials_map : List RGB :=
  (List.range 256).map (fun s => _bgcolors (get_special_background s))

/-- Indexing `self._specials_map[s]` (the index is always pre-clipped into
[0, 255] at every use site). -/
def specialsMapAt (s : Nat) : RGB := (_specials_map[s]?).getD (0, 0, 0)

/-- The external text backend (`self._font.render` plus
`pg.surfarray.array3d(...).swapaxes(0, 1)`): for a character, a foreground
and a background it yields a pixel patch, modelled as a function of
(row, col); the source assumes and the spec documents that actual patches
are at least 16×8. -/
abbrev FontRender := Char → RGB → RGB → Nat → Nat → RGB

/-- A pixel bitmap (rows of RGB pixels). -/
abbrev Patch := List (List RGB)

/-- A tile-cache key: `(c, tuple(color), tuple(background))`. -/
abbrev TileKey := Char × RGB × RGB

/-- The process-global `TILE_CACHE` dict, modelled as an association list. -/
abbrev TileCache := List (TileKey × Patch)

/-- `single_character[:16, :8]`: normalize a backend patch to exactly 16×8. -/
def crop (bitmap : Nat → Nat → RGB) : Patch :=
  (List.range 16).map (fun i => (List.range 8).map (fun j => bitmap i j))

/-- `ImageRenderer._render_char`: look the (char, fg, bg) key up in the tile
cache; on a miss invoke the font backend, crop to 16×8 and store.  Returns
the patch, the updated cache, and whether the backend was invoked. -/
def _render_char (font : FontRender) (cache : TileCache)
    (c : Char) (color background : RGB) : Patch × TileCache × Bool :=
  let key : TileKey := (c, color, background)
  match cache.find? (fun e => e.1 == key) with
  | some e => (e.2, cache, false)
  | none =>
    let single_character_fixed_size := crop (font c color background)
    (single_character_fixed_size, (key, single_character_fixed_size) :: cache, true)

/-- numpy 2-D indexing `g[y, x]`; `none` models an `IndexError`. -/
def gridGet (g : List (List α)) (y x : Nat) : Option α :=
  (g[y]?).bind (fun row => row[x]?)

/-- numpy 2-D assignment `g[y, x] = v`; `none` models an `IndexError`. -/
def gridSet (g : List (List α)) (y x : Nat) (v : α) : Option (List (List α)) :=
  match g[y]? with
  | none => none
  | some row => if x < row.length then some (g.set y (row.set x v)) else none

/-- `self._colors_map[np.clip(grid, 0, 15)]`: elementwise clip and palette
lookup, used for `tty_colors` and `tty_background`. -/
def paletteColors (g : Grid) : ColorGrid :=
  g.map (fun row => row.map (fun v => _colors_map (np_clip v 0 15).toNat))

/-- `np.pad(specials, [[1, 2], [0, 1]])`: one zero row on top, two zero rows
on the bottom, no zero column on the left, one zero column on the right. -/
def np_pad_1201 (g : Grid) : Grid :=
  let w := (g.headD []).length + 1
  [List.replicate w 0] ++ g.map (fun row => row ++ [0]) ++
    [List.replicate w 0, List.replicate w 0]

/-- `self._specials_map[np.clip(padded_specials, 0, 255)]`: elementwise clip
and 256-entry-table lookup. -/
def specialsColors (g : Grid) : ColorGrid :=
  g.map (fun row => row.map (fun v => specialsMapAt (np_clip v 0 255).toNat))

/-- One observation dict: `tty_chars` is required, the rest optional. -/
structure Obs where
  tty_chars : Grid
  tty_colors : Option Grid
  specials : Option Grid
  tty_background : Option Grid
  tty_cursor : Option (Nat × Nat)

/-- The foreground branch of `render`: the override when given, otherwise a
palette lookup of `tty_colors` (a missing `tty_colors` is a `KeyError`). -/
def resolveForeground (obs : Obs) (foreground_colors : Option ColorGrid) :
    Option ColorGrid :=
  match foreground_colors with
  | some f => some f
  | none => obs.tty_colors.map paletteColors

/-- The background branch of `render`: the override when given; otherwise
derived from `specials` (padded, then 256-entry table lookup), else from
`tty_background` (palette lookup), else a black 24×80 grid; and when no
override was given and `tty_cursor` is present, the cell at row `cursor[1]`,
column `cursor[0]` is overwritten with the `cursor` color. -/
def resolveBackground (obs : Obs) (background_colors : Option ColorGrid) :
    Option ColorGrid :=
  match background_colors with
  | some b => some b
  | none =>
    let base : ColorGrid :=
      match obs.specials with
      | some sp => specialsColors (np_pad_1201 sp)
      | none =>
        match obs.tty_background with
        | some tb => paletteColors tb
        | none => List.replicate 24 (List.replicate 80 ((0, 0, 0) : RGB))
    match obs.tty_cursor with
    | some cur => gridSet base cur.2 cur.1 (_bgcolors "cursor")
    | none => some base

/-- The cells `_render_pos(x, y)` of one output row, rendered left to right
(the evaluation order of the inner list comprehension), threading the tile
cache through. -/
def renderRowCells (font : FontRender) (chars : Grid) (fg bg : ColorGrid)
    (y : Nat) : List Nat → TileCache → Option (List Patch × TileCache)
  | [], cache => some ([], cache)
  | x :: xs, cache =>
    match gridGet chars y x, gridGet fg y x, gridGet bg y x with
    | some c, some fgc, some bgc =>
      let r := _render_char font cache (Char.ofNat (represent_char c.toNat)) fgc bgc
      match renderRowCells font chars fg bg y xs r.2.1 with
      | some (ps, cache') => some (r.1 :: ps, cache')
      | none => none
    | _, _, _ => none

/-- All output rows, top to bottom (the evaluation order of the outer list
comprehension), threading the tile cache through. -/
def renderRows (font : FontRender) (chars : Grid) (fg bg : ColorGrid) :
    List Nat → TileCache → Option (List (List Patch) × TileCache)
  | [], cache => some ([], cache)
  | y :: ys, cache =>
    match renderRowCells font chars fg bg y (List.range 80) cache with
    | some (ps, cache') =>
      match renderRows font chars fg bg ys cache' with
      | some (rows, cache'') => some (ps :: rows, cache'')
      | none => none
    | none => none

/-- numpy `np.hstack`: place equal-height blocks side by side. -/
def np_hstack (blocks : List Patch) : Patch :=
  (List.range ((blocks.headD []).length)).map
    (fun i => blocks.flatMap (fun b => b.getD i []))

/-- numpy `np.vstack`: stack blocks vertically. -/
def np_vstack (blocks : List Patch) : Patch := blocks.flatMap id

/-- `ImageRenderer.render`: resolve foreground and background colors, clip
the character grid to [0, 255], render every cell in row-major order and
stitch the 24×80 patches into one image. -/
def render (font : FontRender) (cache : TileCache) (obs : Obs)
    (foreground_colors : Option ColorGrid)
    (background_colors : Option ColorGrid) : Option (Patch × TileCache) :=
  match resolveForeground obs foreground_colors with
  | none => none
  | some fg =>
    match resolveBackground obs background_colors with
    | none => none
    | some bg =>
      let tty_chars := obs.tty_chars.map (fun row => row.map (fun v => np_clip v 0 255))
      match renderRows font tty_chars fg bg (List.range 24) cache with
      | some (rows, cache') => some (np_vstack (rows.map np_hstack), cache')
      | none => none

/-- The tile cache is consistent with the font backend: every cached patch
is the cropped backend output for its key. -/
def CacheConsistent (font : FontRender) (cache : TileCache) : Prop :=
  ∀ e ∈ cache, e.2 = crop (font e.1.1 e.1.2.1 e.1.2.2)

/-- The patch `render` produces for cell (y, x): the cropped backend output
for the remapped character and the resolved colors at that cell. -/
def cellPatchSpec (font : FontRender) (chars : Grid) (fg bg : ColorGrid)
    (y x : Nat) : Patch :=
  crop (font (Char.ofNat (represent_char ((gridGet chars y x).getD 0).toNat))
    ((gridGet fg y x).getD (0, 0, 0)) ((gridGet bg y x).getD (0, 0, 0)))

/-- The pixel the backend contributes at (i, j) inside cell (y, x). -/
def cellPixel (font : FontRender) (chars : Grid) (fg bg : ColorGrid)
    (y x i j : Nat) : RGB :=
  font (Char.ofNat (represent_char ((gridGet chars y x).getD 0).toNat))
    ((gridGet fg y x).getD (0, 0, 0)) ((gridGet bg y x).getD (0, 0, 0)) i j

/-- A grid covers the 24×80 cell region when every in-range lookup succeeds
(the grid may be larger; cells beyond the region are never read). -/
def Covers24x80 {α : Type _} (g : List (List α)) : Prop :=
  ∀ y, y < 24 → ∀ x, x < 80 → (gridGet g y x).isSome = true

/-- A concrete all-black backend used to instantiate witnesses. -/
def fontBlack : FontRender := fun _ _ _ _ _ => (0, 0, 0)

/-- A 24×80 grid with every character code 65. -/
def charsA : Grid := List.replicate 24 (List.replicate 80 65)

/-- A 24×80 grid of black pixels. -/
def blackGrid : ColorGrid := List.replicate 24 (List.replicate 80 (0, 0, 0))

/-- An observation carrying only `tty_chars`. -/
def obsPlain : Obs := ⟨charsA, none, none, none, none⟩

/-- An observation with a cursor at column 5, row 3. -/
def obsCursor : Obs := ⟨charsA, none, none, none, some (5, 3)⟩

/-- An observation with a 21×79 `specials` grid, every cell flagged corpse. -/
def obsSpecials : Obs :=
  ⟨charsA, none, some (List.replicate 21 (List.replicate 79 1)), none, none⟩

/-- A malformed observation with a 25×80 character grid. -/
def obsBig : Obs :=
  ⟨List.replicate 25 (List.replicate 80 65), none, none, none, none⟩

/-- A malformed observation with a 23×80 character grid. -/
def obsSmall : Obs :=
  ⟨List.replicate 23 (List.replicate 80 65), none, none, none, none⟩

/-- A concrete non-empty consistent cache for the C6 witness. -/
def cacheDemo : TileCache :=
  [((' ', ((0, 0, 0) : RGB), ((0, 0, 0) : RGB)),
    crop (fontBlack ' ' (0, 0, 0) (0, 0, 0)))]

/-- Entry `s` of the 256-entry table is the color of `get_special_background s`. -/
lemma specialsMapAt_eq (s : Nat) (h : s < 256) :
    specialsMapAt s = _bgcolors (get_special_background s) := by
  unfold specialsMapAt _specials_map
  rw [List.getElem?_map, List.getElem?_range h]
  rfl

set_option maxRecDepth 4096 in
/-- `get_special_background` agrees with the spec's ordered priority list on
every byte value. -/
lemma get_special_background_eq_spec :
    ∀ s : Fin 256, get_special_background s = resolveSpecialSpec s := by decide

/-- C1: for every 8-bit bitfield value `s`, `get_special_background` returns
exactly the earliest situation of the fixed priority list whose mask ANDed
with `s` is non-zero (`default` when none matches), and the precomputed
256-entry table maps `s` to that situation's RGB triple. -/
theorem claim_C1 (s : Nat) (h : s < 256) :
    get_special_background s = resolveSpecialSpec s ∧
    specialsMapAt s = _bgcolors (resolveSpecialSpec s) := by
  have h1 := get_special_background_eq_spec ⟨s, h⟩
  exact ⟨h1, by rw [specialsMapAt_eq s h, h1]⟩

/-- Witness for C1 at `s = 9` (corpse and pet bits both set: corpse wins). -/
theorem claim_C1_witness :
    get_special_background 9 = resolveSpecialSpec 9 ∧
    specialsMapAt 9 = _bgcolors (resolveSpecialSpec 9) :=
  claim_C1 9 (by decide)

/-- C7: `hex_string_to_color_tuple` parses `"#RRGGBB"` into (R, G, B) in that
exact byte order, discarding the fourth decoded byte; in particular on the
three concrete palette strings of the spec. -/
theorem claim_C7 (rest : String) (n : Nat)
    (hparse : parseHexNat rest.toList = some n) (hn : n < 16777216) :
    hex_string_to_color_tuple ("#" ++ rest) =
      some (n / 65536, n / 256 % 256, n % 256) ∧
    hex_string_to_color_tuple "#000000" = some (0, 0, 0) ∧
    hex_string_to_color_tuple "#ff00ff" = some (255, 0, 255) ∧
    hex_string_to_color_tuple "#aa7700" = some (170, 119, 0) := by
  refine ⟨?_, by decide, by decide, by decide⟩
  unfold hex_string_to_color_tuple
  have hdrop : ("#" ++ rest).toList.drop 1 = rest.toList := by
    show (("#" ++ rest).data).drop 1 = rest.data
    rw [String.data_append]
    rfl
  rw [hdrop, hparse]
  have h32 : n < 4294967296 := by omega
  have hred : n / 65536 % 256 = n / 65536 := by omega
  simp only [Option.bind_eq_bind, Option.some_bind, struct_unpack_4B,
    if_pos h32, hred]
  rfl

/-- Witness for C7 at `"#aa7700"`. -/
theorem claim_C7_witness :
    hex_string_to_color_tuple ("#" ++ "aa7700") =
      some (11171584 / 65536, 11171584 / 256 % 256, 11171584 % 256) ∧
    hex_string_to_color_tuple "#000000" = some (0, 0, 0) ∧
    hex_string_to_color_tuple "#ff00ff" = some (255, 0, 255) ∧
    hex_string_to_color_tuple "#aa7700" = some (170, 119, 0) :=
  claim_C7 "aa7700" 11171584 (by decide) (by decide)

/-- C8: `represent_char` maps 0 to the space character, the backtick to the
digit `0`, and every other code to itself. -/
theorem claim_C8 (c : Nat) (h0 : c ≠ 0) (h96 : c ≠ ('`').toNat) :
    represent_char 0 = (' ').toNat ∧
    represent_char (('`').toNat) = ('0').toNat ∧
    represent_char c = c := by
  refine ⟨by decide, by decide, ?_⟩
  unfold represent_char
  rw [if_neg h0, if_neg h96]

/-- Witness for C8 at `c = 65`. -/
theorem claim_C8_witness :
    represent_char 0 = (' ').toNat ∧
    represent_char (('`').toNat) = ('0').toNat ∧
    represent_char 65 = 65 :=
  claim_C8 65 (by decide) (by decide)

lemma cacheConsistent_nil (font : FontRender) : CacheConsistent font [] :=
  fun e he => absurd he (List.not_mem_nil e)

/-- Under a consistent cache, `_render_char` returns the cropped backend
output for its arguments and keeps the cache consistent. -/
lemma _render_char_eq (font : FontRender) (cache : TileCache) (c : Char)
    (a b : RGB) (hcc : CacheConsistent font cache) :
    (_render_char font cache c a b).1 = crop (font c a b) ∧
    CacheConsistent font (_render_char font cache c a b).2.1 := by
  simp only [_render_char]
  cases hfind : cache.find? (fun e => e.1 == ((c, a, b) : TileKey)) with
  | none =>
    refine ⟨rfl, fun e he => ?_⟩
    rcases List.mem_cons.mp he with h | h
    · subst h; rfl
    · exact hcc e h
  | some e =>
    have hmem := List.mem_of_find?_eq_some hfind
    have hb := List.find?_some hfind
    have hkey : e.1 = ((c, a, b) : TileKey) := eq_of_beq hb
    refine ⟨?_, hcc⟩
    have h2 := hcc e hmem
    show e.2 = crop (font c a b)
    rw [h2, hkey]

lemma gridGet_replicate {α : Type _} (a : α) (n m y x : Nat)
    (hy : y < n) (hx : x < m) :
    gridGet (List.replicate n (List.replicate m a)) y x = some a := by
  unfold gridGet
  rw [List.getElem?_replicate_of_lt hy]
  simp [List.getElem?_replicate_of_lt hx]

lemma gridGet_map {α β : Type _} (f : α → β) (g : List (List α)) (y x : Nat) :
    gridGet (g.map (fun row => row.map f)) y x = (gridGet g y x).map f := by
  unfold gridGet
  rw [List.getElem?_map]
  cases g[y]? with
  | none => rfl
  | some row => simp

/-- Setting a cell of a constant grid succeeds inside the bounds and yields
the grid that differs only at that cell. -/
lemma gridSet_replicate {α : Type _} (n m y x : Nat) (v d : α)
    (hy : y < n) (hx : x < m) :
    gridSet (List.replicate n (List.replicate m d)) y x v =
      some ((List.replicate n (List.replicate m d)).set y
        ((List.replicate m d).set x v)) := by
  unfold gridSet
  rw [List.getElem?_replicate_of_lt hy]
  simp [hx]

lemma gridGet_set_replicate {α : Type _} (n m y x r c : Nat) (v d : α)
    (hy : y < n) (hx : x < m) (hr : r < n) (hc : c < m) :
    gridGet ((List.replicate n (List.replicate m d)).set y
        ((List.replicate m d).set x v)) r c =
      some (if r = y ∧ c = x then v else d) := by
  unfold gridGet
  by_cases hry : r = y
  · by_cases hcx : c = x
    · subst hry; subst hcx
      rw [List.getElem?_set_self (by simpa using hr), Option.some_bind,
          List.getElem?_set_self (by simpa using hc)]
      simp
    · subst hry
      rw [List.getElem?_set_self (by simpa using hr), Option.some_bind,
          List.getElem?_set_ne (by omega), List.getElem?_replicate_of_lt hc]
      simp [hcx]
  · rw [List.getElem?_set_ne (by omega), List.getElem?_replicate_of_lt hr,
        Option.some_bind, List.getElem?_replicate_of_lt hc]
    simp [hry]

lemma renderRowCells_spec (font : FontRender) (chars : Grid) (fg bg : ColorGrid)
    (y : Nat) (xs : List Nat) :
    ∀ (cache : TileCache), CacheConsistent font cache →
      (∀ x ∈ xs, (gridGet chars y x).isSome ∧ (gridGet fg y x).isSome ∧
        (gridGet bg y x).isSome) →
      ∃ cache', renderRowCells font chars fg bg y xs cache =
          some (xs.map (cellPatchSpec font chars fg bg y), cache') ∧
        CacheConsistent font cache' := by
  induction xs with
  | nil => intro cache hcc _; exact ⟨cache, rfl, hcc⟩
  | cons x xs ih =>
    intro cache hcc hcells
    obtain ⟨hc, hf, hb⟩ := hcells x (List.mem_cons_self x xs)
    obtain ⟨c, hc⟩ := Option.isSome_iff_exists.mp hc
    obtain ⟨f, hf⟩ := Option.isSome_iff_exists.mp hf
    obtain ⟨b, hb⟩ := Option.isSome_iff_exists.mp hb
    obtain ⟨hval, hcc'⟩ := _render_char_eq font cache
      (Char.ofNat (represent_char c.toNat)) f b hcc
    obtain ⟨cache', hrec, hcc''⟩ := ih _ hcc'
      (fun x' hx' => hcells x' (List.mem_cons_of_mem x hx'))
    refine ⟨cache', ?_, hcc''⟩
    simp only [renderRowCells, hc, hf, hb, hrec, hval, List.map_cons]
    simp [cellPatchSpec, hc, hf, hb]

lemma renderRows_spec (font : FontRender) (chars : Grid) (fg bg : ColorGrid)
    (ys : List Nat) :
    ∀ (cache : TileCache), CacheConsistent font cache →
      (∀ y ∈ ys, ∀ x ∈ List.range 80, (gridGet chars y x).isSome ∧
        (gridGet fg y x).isSome ∧ (gridGet bg y x).isSome) →
      ∃ cache', renderRows font chars fg bg ys cache =
          some (ys.map (fun y =>
            (List.range 80).map (cellPatchSpec font chars fg bg y)), cache') ∧
        CacheConsistent font cache' := by
  induction ys with
  | nil => intro cache hcc _; exact ⟨cache, rfl, hcc⟩
  | cons y ys ih =>
    intro cache hcc hcells
    obtain ⟨cache1, hrow, hcc1⟩ := renderRowCells_spec font chars fg bg y
      (List.range 80) cache hcc (hcells y (List.mem_cons_self y ys))
    obtain ⟨cache2, hrows, hcc2⟩ := ih cache1 hcc1
      (fun y' hy' => hcells y' (List.mem_cons_of_mem y hy'))
    refine ⟨cache2, ?_, hcc2⟩
    simp only [renderRows, hrow, hrows, List.map_cons]

lemma flatMap_congr_aux {α β : Type _} (l : List α) (f g : α → List β)
    (h : ∀ a ∈ l, f a = g a) : l.flatMap f = l.flatMap g := by
  induction l with
  | nil => rfl
  | cons a l ih =>
    simp only [List.flatMap_cons, h a (List.mem_cons_self a l),
      ih (fun a' ha' => h a' (List.mem_cons_of_mem a ha'))]

lemma flatMap_length_const {α β : Type _} (l : List β) (f : β → List α)
    (m : Nat) (hm : ∀ b ∈ l, (f b).length = m) :
    (l.flatMap f).length = l.length * m := by
  induction l with
  | nil => simp
  | cons b l ih =>
    simp only [List.flatMap_cons, List.length_append, List.length_cons]
    rw [hm b (List.mem_cons_self b l),
      ih (fun b' hb' => hm b' (List.mem_cons_of_mem b hb'))]
    ring

lemma flatMap_getElem_const {α β : Type _} (m : Nat) :
    ∀ (l : List β) (f : β → List α), (∀ b ∈ l, (f b).length = m) →
      ∀ (q r : Nat), q < l.length → r < m →
        (l.flatMap f)[q * m + r]? = (l[q]?).bind (fun b => (f b)[r]?)
  | [], _, _, q, _, hq, _ => by simp at hq
  | b :: l, f, hm, 0, r, hq, hr => by
    simp only [List.flatMap_cons]
    rw [List.getElem?_append_left
      (by rw [hm b (List.mem_cons_self b l)]; omega)]
    simp
  | b :: l, f, hm, q + 1, r, hq, hr => by
    simp only [List.flatMap_cons]
    have hidx : (q + 1) * m + r = (f b).length + (q * m + r) := by
      rw [hm b (List.mem_cons_self b l)]; ring
    rw [hidx, List.getElem?_append_right (Nat.le_add_right _ _),
      Nat.add_sub_cancel_left, List.getElem?_cons_succ]
    exact flatMap_getElem_const m l f
      (fun b' hb' => hm b' (List.mem_cons_of_mem b hb')) q r
      (by simpa using hq) hr

lemma crop_length (f : Nat → Nat → RGB) : (crop f).length = 16 := by
  simp [crop]

lemma crop_getD (f : Nat → Nat → RGB) (i : Nat) (hi : i < 16) :
    (crop f).getD i [] = (List.range 8).map (f i) := by
  unfold crop
  rw [List.getD_eq_getElem?_getD, List.getElem?_map, List.getElem?_range hi]
  rfl

lemma crop_getElem (f : Nat → Nat → RGB) (i j : Nat) (hi : i < 16)
    (hj : j < 8) : gridGet (crop f) i j = some (f i j) := by
  unfold gridGet crop
  rw [List.getElem?_map, List.getElem?_range hi]
  simp [List.getElem?_range hj]

/-- `np.hstack` over 80 cropped patches, row by row. -/
lemma np_hstack_crops (F : Nat → Nat → Nat → RGB) (n : Nat) (hn : 0 < n) :
    np_hstack ((List.range n).map (fun x => crop (F x))) =
      (List.range 16).map (fun i =>
        (List.range n).flatMap (fun x => (List.range 8).map (F x i))) := by
  unfold np_hstack
  have hhead : ((List.range n).map (fun x => crop (F x))).headD [] =
      crop (F 0) := by
    cases n with
    | zero => omega
    | succ k =>
      rw [List.range_succ_eq_map]
      rfl
  rw [hhead, crop_length]
  refine List.map_congr_left (fun i hi => ?_)
  have hi16 : i < 16 := List.mem_range.mp hi
  rw [List.flatMap_map]
  exact flatMap_congr_aux _ _ _ (fun x _ => by
    show (crop (F x)).getD i [] = _
    rw [crop_getD (F x) i hi16])

lemma render_eq_of (font : FontRender) (cache : TileCache) (obs : Obs)
    (fgo bgo : Option ColorGrid) (fg bg : ColorGrid)
    (rows : List (List Patch)) (cache' : TileCache)
    (hfg : resolveForeground obs fgo = some fg)
    (hbg : resolveBackground obs bgo = some bg)
    (hrows : renderRows font
      (obs.tty_chars.map (fun row => row.map (fun v => np_clip v 0 255)))
      fg bg (List.range 24) cache = some (rows, cache')) :
    render font cache obs fgo bgo =
      some (np_vstack (rows.map np_hstack), cache') := by
  simp only [render, hfg, hbg, hrows]

/-- Composition lemma: rendering all 24×80 cells and stitching them yields a
384×640 image whose (y*16+i, x*8+j) pixel is the backend pixel of cell
(y, x). -/
lemma composite_master (font : FontRender) (cache : TileCache) (chars : Grid)
    (fg bg : ColorGrid) (hcc : CacheConsistent font cache)
    (hchars : Covers24x80 chars) (hfgc : Covers24x80 fg)
    (hbgc : Covers24x80 bg) :
    ∃ rows cache',
      renderRows font chars fg bg (List.range 24) cache = some (rows, cache') ∧
      CacheConsistent font cache' ∧
      (np_vstack (rows.map np_hstack)).length = 384 ∧
      (∀ row ∈ np_vstack (rows.map np_hstack), row.length = 640) ∧
      (∀ y x i j, y < 24 → x < 80 → i < 16 → j < 8 →
        gridGet (np_vstack (rows.map np_hstack)) (y * 16 + i) (x * 8 + j) =
          some (cellPixel font chars fg bg y x i j)) := by
  have hcovers : ∀ y ∈ List.range 24, ∀ x ∈ List.range 80,
      (gridGet chars y x).isSome ∧ (gridGet fg y x).isSome ∧
      (gridGet bg y x).isSome := by
    intro y hy x hx
    have hy24 := List.mem_range.mp hy
    have hx80 := List.mem_range.mp hx
    exact ⟨hchars y hy24 x hx80, hfgc y hy24 x hx80, hbgc y hy24 x hx80⟩
  obtain ⟨cache', hrows, hcc'⟩ :=
    renderRows_spec font chars fg bg (List.range 24) cache hcc hcovers
  refine ⟨_, cache', hrows, hcc', ?_⟩
  have hpatch : ∀ y, cellPatchSpec font chars fg bg y =
      fun x => crop (cellPixel font chars fg bg y x) := fun y => rfl
  have hblocks : ((List.range 24).map (fun y => (List.range 80).map
        (cellPatchSpec font chars fg bg y))).map np_hstack =
      (List.range 24).map (fun y => (List.range 16).map (fun i =>
        (List.range 80).flatMap (fun x => (List.range 8).map
          (cellPixel font chars fg bg y x i)))) := by
    rw [List.map_map]
    refine List.map_congr_left (fun y _ => ?_)
    show np_hstack ((List.range 80).map (cellPatchSpec font chars fg bg y)) = _
    rw [hpatch y, np_hstack_crops (cellPixel font chars fg bg y) 80 (by omega)]
  rw [hblocks]
  have hblock_len : ∀ b ∈ (List.range 24).map (fun y =>
      (List.range 16).map (fun i => (List.range 80).flatMap (fun x =>
        (List.range 8).map (cellPixel font chars fg bg y x i)))),
      (id b).length = 16 := by
    intro b hb
    obtain ⟨y, _, rfl⟩ := List.mem_map.mp hb
    simp
  refine ⟨?_, ?_, ?_⟩
  · unfold np_vstack
    rw [flatMap_length_const _ id 16 hblock_len]
    simp
  · intro row hrow
    unfold np_vstack at hrow
    obtain ⟨b, hb, hrowb⟩ := List.mem_flatMap.mp hrow
    obtain ⟨y, _, rfl⟩ := List.mem_map.mp hb
    obtain ⟨i, _, rfl⟩ := List.mem_map.mp hrowb
    rw [flatMap_length_const _ _ 8 (fun x _ => by simp)]
    simp
  · intro y x i j hy hx hi hj
    unfold gridGet np_vstack
    rw [flatMap_getElem_const 16 _ id hblock_len y i (by simpa using hy) hi]
    rw [List.getElem?_map, List.getElem?_range hy]
    simp only [Option.map_some', Option.some_bind, id_eq]
    rw [List.getElem?_map, List.getElem?_range hi]
    simp only [Option.map_some', Option.some_bind]
    rw [flatMap_getElem_const 8 _ _ (fun x' _ => by simp) x j
      (by simpa using hx) hj]
    rw [List.getElem?_range hx]
    simp only [Option.some_bind]
    rw [List.getElem?_map, List.getElem?_range hj]
    rfl

lemma covers_of_shape {α : Type _} (g : List (List α)) (h24 : 24 ≤ g.length)
    (h80 : ∀ row ∈ g, 80 ≤ row.length) : Covers24x80 g := by
  intro y hy x hx
  unfold gridGet
  have hyl : y < g.length := by omega
  rw [List.getElem?_eq_getElem hyl, Option.some_bind]
  have hxl : x < (g[y]).length := by
    have := h80 _ (List.getElem_mem hyl)
    omega
  rw [List.getElem?_eq_getElem hxl]
  rfl

lemma covers_replicate {α : Type _} (a : α) (n m : Nat) (h24 : 24 ≤ n)
    (h80 : 80 ≤ m) : Covers24x80 (List.replicate n (List.replicate m a)) :=
  fun y hy x hx => by
    rw [gridGet_replicate a n m y x (by omega) (by omega)]; rfl

/-- Master lemma for `render`: when both color channels resolve and all
grids cover the 24×80 region, `render` succeeds with a 384×640 image whose
pixel block at offset (y*16, x*8) is the backend patch for cell (y, x). -/
lemma render_master (font : FontRender) (cache : TileCache) (obs : Obs)
    (fgo bgo : Option ColorGrid) (fg bg : ColorGrid)
    (hcc : CacheConsistent font cache)
    (hfg : resolveForeground obs fgo = some fg)
    (hbg : resolveBackground obs bgo = some bg)
    (hchars : Covers24x80 obs.tty_chars) (hfgc : Covers24x80 fg)
    (hbgc : Covers24x80 bg) :
    ∃ img cache', render font cache obs fgo bgo = some (img, cache') ∧
      CacheConsistent font cache' ∧
      img.length = 384 ∧ (∀ row ∈ img, row.length = 640) ∧
      ∀ y x i j, y < 24 → x < 80 → i < 16 → j < 8 →
        gridGet img (y * 16 + i) (x * 8 + j) =
          some (font
            (Char.ofNat (represent_char
              (np_clip ((gridGet obs.tty_chars y x).getD 0) 0 255).toNat))
            ((gridGet fg y x).getD (0, 0, 0))
            ((gridGet bg y x).getD (0, 0, 0)) i j) := by
  have hchars' : Covers24x80 (obs.tty_chars.map
      (fun row => row.map (fun v => np_clip v 0 255))) := by
    intro y hy x hx
    obtain ⟨v, hv⟩ := Option.isSome_iff_exists.mp (hchars y hy x hx)
    rw [gridGet_map, hv]; rfl
  obtain ⟨rows, cache', hrows, hcc', hlen, hwidth, hpix⟩ :=
    composite_master font cache
      (obs.tty_chars.map (fun row => row.map (fun v => np_clip v 0 255)))
      fg bg hcc hchars' hfgc hbgc
  refine ⟨np_vstack (rows.map np_hstack), cache',
    render_eq_of font cache obs fgo bgo fg bg rows cache' hfg hbg hrows,
    hcc', hlen, hwidth, ?_⟩
  intro y x i j hy hx hi hj
  rw [hpix y x i j hy hx hi hj]
  obtain ⟨v, hv⟩ := Option.isSome_iff_exists.mp (hchars y hy x hx)
  unfold cellPixel
  rw [gridGet_map, hv]
  rfl

/-- C4: with inputs of the declared 24×80 shape (the backend modelled as
always supplying at least 16×8 pixels, cropped to exactly 16×8), `render`
returns a 384×640×3 image in which the glyph of cell (row, col) occupies
the pixel block starting at offset (row*16, col*8), cells composed in
row-major order. -/
theorem claim_C4 (font : FontRender) (cache : TileCache) (obs : Obs)
    (fgo bgo : Option ColorGrid) (fg bg : ColorGrid)
    (hcc : CacheConsistent font cache)
    (hfg : resolveForeground obs fgo = some fg)
    (hbg : resolveBackground obs bgo = some bg)
    (hchars : obs.tty_chars.length = 24 ∧ ∀ row ∈ obs.tty_chars, row.length = 80)
    (hfgs : fg.length = 24 ∧ ∀ row ∈ fg, row.length = 80)
    (hbgs : bg.length = 24 ∧ ∀ row ∈ bg, row.length = 80) :
    ∃ img cache', render font cache obs fgo bgo = some (img, cache') ∧
      img.length = 384 ∧ (∀ row ∈ img, row.length = 640) ∧
      ∀ y x i j, y < 24 → x < 80 → i < 16 → j < 8 →
        gridGet img (y * 16 + i) (x * 8 + j) =
          some (font
            (Char.ofNat (represent_char
              (np_clip ((gridGet obs.tty_chars y x).getD 0) 0 255).toNat))
            ((gridGet fg y x).getD (0, 0, 0))
            ((gridGet bg y x).getD (0, 0, 0)) i j) := by
  obtain ⟨img, cache', h1, _, h3, h4, h5⟩ := render_master font cache obs
    fgo bgo fg bg hcc hfg hbg
    (covers_of_shape _ (by omega) (fun row hrow => by rw [hchars.2 row hrow]))
    (covers_of_shape _ (by omega) (fun row hrow => by rw [hfgs.2 row hrow]))
    (covers_of_shape _ (by omega) (fun row hrow => by rw [hbgs.2 row hrow]))
  exact ⟨img, cache', h1, h3, h4, h5⟩

/-- Witness for C4 on concrete 24×80 inputs. -/
theorem claim_C4_witness :
    ∃ img cache',
      render fontBlack [] obsPlain (some blackGrid) (some blackGrid) =
        some (img, cache') ∧
      img.length = 384 ∧ (∀ row ∈ img, row.length = 640) ∧
      ∀ y x i j, y < 24 → x < 80 → i < 16 → j < 8 →
        gridGet img (y * 16 + i) (x * 8 + j) =
          some (fontBlack
            (Char.ofNat (represent_char
              (np_clip ((gridGet obsPlain.tty_chars y x).getD 0) 0 255).toNat))
            ((gridGet blackGrid y x).getD (0, 0, 0))
            ((gridGet blackGrid y x).getD (0, 0, 0)) i j) :=
  claim_C4 fontBlack [] obsPlain (some blackGrid) (some blackGrid)
    blackGrid blackGrid (cacheConsistent_nil fontBlack) rfl rfl
    ⟨by decide, by decide⟩ ⟨by decide, by decide⟩ ⟨by decide, by decide⟩

/-- C2: with a cursor at (cx, cy), no `specials`, no `tty_background` and no
background override, the resolved background is the `cursor` color at
exactly cell (cy, cx) and black everywhere else, and the rendered image uses
those backgrounds cell by cell. -/
theorem claim_C2 (font : FontRender) (cache : TileCache) (obs : Obs)
    (fgo : Option ColorGrid) (fg : ColorGrid) (cx cy : Nat)
    (hcc : CacheConsistent font cache)
    (hsp : obs.specials = none) (htb : obs.tty_background = none)
    (hcur : obs.tty_cursor = some (cx, cy))
    (hx : cx < 80) (hy : cy < 24)
    (hfg : resolveForeground obs fgo = some fg)
    (hchars : Covers24x80 obs.tty_chars) (hfgc : Covers24x80 fg) :
    ∃ bg img cache',
      resolveBackground obs none = some bg ∧
      render font cache obs fgo none = some (img, cache') ∧
      (∀ y x, y < 24 → x < 80 →
        gridGet bg y x =
          some (if y = cy ∧ x = cx then _bgcolors "cursor" else (0, 0, 0))) ∧
      ∀ y x i j, y < 24 → x < 80 → i < 16 → j < 8 →
        gridGet img (y * 16 + i) (x * 8 + j) =
          some (font
            (Char.ofNat (represent_char
              (np_clip ((gridGet obs.tty_chars y x).getD 0) 0 255).toNat))
            ((gridGet fg y x).getD (0, 0, 0))
            (if y = cy ∧ x = cx then _bgcolors "cursor" else (0, 0, 0)) i j) := by
  have hbg : resolveBackground obs none =
      some ((List.replicate 24 (List.replicate 80 ((0, 0, 0) : RGB))).set cy
        ((List.replicate 80 ((0, 0, 0) : RGB)).set cx (_bgcolors "cursor"))) := by
    simp only [resolveBackground, hsp, htb, hcur]
    exact gridSet_replicate 24 80 cy cx (_bgcolors "cursor") (0, 0, 0) hy hx
  have bgfact : ∀ y x, y < 24 → x < 80 →
      gridGet ((List.replicate 24 (List.replicate 80 ((0, 0, 0) : RGB))).set cy
        ((List.replicate 80 ((0, 0, 0) : RGB)).set cx (_bgcolors "cursor"))) y x =
      some (if y = cy ∧ x = cx then _bgcolors "cursor" else (0, 0, 0)) :=
    fun y x hy' hx' =>
      gridGet_set_replicate 24 80 cy cx y x (_bgcolors "cursor") (0, 0, 0)
        hy hx hy' hx'
  have hbgc : Covers24x80
      ((List.replicate 24 (List.replicate 80 ((0, 0, 0) : RGB))).set cy
        ((List.replicate 80 ((0, 0, 0) : RGB)).set cx (_bgcolors "cursor"))) :=
    fun y hy' x hx' => by rw [bgfact y x hy' hx']; rfl
  obtain ⟨img, cache', h1, _, _, _, hpix⟩ := render_master font cache obs
    fgo none fg _ hcc hfg hbg hchars hfgc hbgc
  refine ⟨_, img, cache', hbg, h1, bgfact, ?_⟩
  intro y x i j hy' hx' hi hj
  rw [hpix y x i j hy' hx' hi hj, bgfact y x hy' hx']
  rfl

/-- Witness for C2 with the cursor at (5, 3). -/
theorem claim_C2_witness :
    ∃ bg img cache',
      resolveBackground obsCursor none = some bg ∧
      render fontBlack [] obsCursor (some blackGrid) none =
        some (img, cache') ∧
      (∀ y x, y < 24 → x < 80 →
        gridGet bg y x =
          some (if y = 3 ∧ x = 5 then _bgcolors "cursor" else (0, 0, 0))) ∧
      ∀ y x i j, y < 24 → x < 80 → i < 16 → j < 8 →
        gridGet img (y * 16 + i) (x * 8 + j) =
          some (fontBlack
            (Char.ofNat (represent_char
              (np_clip ((gridGet obsCursor.tty_chars y x).getD 0) 0 255).toNat))
            ((gridGet blackGrid y x).getD (0, 0, 0))
            (if y = 3 ∧ x = 5 then _bgcolors "cursor" else (0, 0, 0)) i j) :=
  claim_C2 fontBlack [] obsCursor (some blackGrid) blackGrid 5 3
    (cacheConsistent_nil fontBlack) rfl rfl rfl (by decide) (by decide) rfl
    (covers_replicate (65 : Int) 24 80 (by decide) (by decide))
    (covers_replicate ((0, 0, 0) : RGB) 24 80 (by decide) (by decide))

/-- C9: when a background override is supplied, `tty_cursor` is ignored:
`render` is unchanged by the cursor field, and the override array is used
as the background grid verbatim (also at the cursor cell). -/
theorem claim_C9 (font : FontRender) (cache : TileCache) (chars : Grid)
    (cols spx tbx : Option Grid) (cur : Nat × Nat) (fgo : Option ColorGrid)
    (bgov : ColorGrid) :
    render font cache ⟨chars, cols, spx, tbx, some cur⟩ fgo (some bgov) =
      render font cache ⟨chars, cols, spx, tbx, none⟩ fgo (some bgov) ∧
    resolveBackground ⟨chars, cols, spx, tbx, some cur⟩ (some bgov) =
      some bgov :=
  ⟨rfl, rfl⟩

/-- C10: when both `specials` and `tty_background` are present and no
background override is given, the background of every cell is derived from
`specials` via the padded 256-entry table lookup; `tty_background` is
ignored entirely. -/
theorem claim_C10 (font : FontRender) (cache : TileCache) (chars : Grid)
    (cols : Option Grid) (sp tb : Grid) (cur : Option (Nat × Nat))
    (fgo : Option ColorGrid) :
    render font cache ⟨chars, cols, some sp, some tb, cur⟩ fgo none =
      render font cache ⟨chars, cols, some sp, none, cur⟩ fgo none ∧
    resolveBackground ⟨chars, cols, some sp, some tb, none⟩ none =
      some (specialsColors (np_pad_1201 sp)) :=
  ⟨rfl, rfl⟩

/-- On a 21×79 `specials` grid, `np.pad` adds exactly one zero row on top,
two on the bottom and one zero column on the right. -/
lemma np_pad_1201_shape (sp : Grid) (h21 : sp.length = 21)
    (h79 : ∀ row ∈ sp, row.length = 79) :
    np_pad_1201 sp = [List.replicate 80 0] ++
      sp.map (fun row => row ++ [0]) ++
      [List.replicate 80 0, List.replicate 80 0] := by
  have hne : sp ≠ [] := by
    intro h; rw [h] at h21; simp at h21
  obtain ⟨a, l, rfl⟩ := List.exists_cons_of_ne_nil hne
  have hhead : ((a :: l).headD []).length = 79 :=
    h79 a (List.mem_cons_self a l)
  simp only [np_pad_1201, hhead]

lemma np_pad_1201_rows (sp : Grid) (h21 : sp.length = 21)
    (h79 : ∀ row ∈ sp, row.length = 79) :
    (np_pad_1201 sp).length = 24 ∧
    ∀ row ∈ np_pad_1201 sp, row.length = 80 := by
  rw [np_pad_1201_shape sp h21 h79]
  refine ⟨by simp [h21], fun row hrow => ?_⟩
  simp only [List.append_assoc, List.mem_append, List.mem_singleton,
    List.mem_map, List.mem_cons, List.not_mem_nil, or_false] at hrow
  rcases hrow with h | ⟨r, hr, rfl⟩ | h | h
  · subst h; simp
  · simp [h79 r hr]
  · subst h; simp
  · subst h; simp

/-- Every border cell of the padded grid (top row, bottom two rows, last
column) holds a zero bitfield. -/
lemma np_pad_1201_border (sp : Grid) (h21 : sp.length = 21)
    (h79 : ∀ row ∈ sp, row.length = 79) (y x : Nat) (hy : y < 24) (hx : x < 80)
    (hb : y = 0 ∨ y = 22 ∨ y = 23 ∨ x = 79) :
    gridGet (np_pad_1201 sp) y x = some 0 := by
  rw [np_pad_1201_shape sp h21 h79]
  unfold gridGet
  have hlen12 : ([List.replicate 80 (0 : Int)] ++
      sp.map (fun row => row ++ [0])).length = 22 := by simp [h21]
  by_cases hy0 : y = 0
  · subst hy0
    rw [List.getElem?_append_left (by rw [hlen12]; omega),
      List.getElem?_append_left (by simp)]
    simp only [List.getElem?_cons_zero, Option.some_bind]
    rw [List.getElem?_replicate_of_lt hx]
  · by_cases hy22 : 22 ≤ y
    · rw [List.getElem?_append_right (by rw [hlen12]; omega), hlen12]
      have h2 : y - 22 = 0 ∨ y - 22 = 1 := by omega
      rcases h2 with h | h <;> rw [h] <;>
        simp only [List.getElem?_cons_succ, List.getElem?_cons_zero,
          Option.some_bind] <;>
        rw [List.getElem?_replicate_of_lt hx]
    · have hx79 : x = 79 := by rcases hb with h | h | h | h <;> omega
      subst hx79
      rw [List.getElem?_append_left (by rw [hlen12]; omega),
        List.getElem?_append_right (by simp; omega)]
      simp only [List.length_singleton]
      rw [List.getElem?_map]
      have hy1 : y - 1 < sp.length := by omega
      rw [List.getElem?_eq_getElem hy1]
      simp only [Option.map_some', Option.some_bind]
      have hrl : (sp[y - 1]).length = 79 := h79 _ (List.getElem_mem hy1)
      rw [List.getElem?_append_right (by rw [hrl]), hrl]
      simp

/-- C3: a 21×79 `specials` grid is zero-padded with exactly 1 row on top,
2 rows on the bottom, 0 columns on the left and 1 column on the right
before indexing the 256-entry table, so the backgrounds of row 0, rows 22
and 23, and column 79 equal the `default` color regardless of the specials
values. -/
theorem claim_C3 (font : FontRender) (cache : TileCache) (obs : Obs)
    (fgo : Option ColorGrid) (fg : ColorGrid) (sp : Grid)
    (hcc : CacheConsistent font cache)
    (hsp : obs.specials = some sp) (hcur : obs.tty_cursor = none)
    (h21 : sp.length = 21) (h79 : ∀ row ∈ sp, row.length = 79)
    (hfg : resolveForeground obs fgo = some fg)
    (hchars : Covers24x80 obs.tty_chars) (hfgc : Covers24x80 fg) :
    np_pad_1201 sp = [List.replicate 80 0] ++
      sp.map (fun row => row ++ [0]) ++
      [List.replicate 80 0, List.replicate 80 0] ∧
    resolveBackground obs none = some (specialsColors (np_pad_1201 sp)) ∧
    (∀ y x, y < 24 → x < 80 → (y = 0 ∨ y = 22 ∨ y = 23 ∨ x = 79) →
      gridGet (specialsColors (np_pad_1201 sp)) y x =
        some (_bgcolors "default")) ∧
    ∃ img cache', render font cache obs fgo none = some (img, cache') ∧
      ∀ y x i j, y < 24 → x < 80 → i < 16 → j < 8 →
        (y = 0 ∨ y = 22 ∨ y = 23 ∨ x = 79) →
        gridGet img (y * 16 + i) (x * 8 + j) =
          some (font
            (Char.ofNat (represent_char
              (np_clip ((gridGet obs.tty_chars y x).getD 0) 0 255).toNat))
            ((gridGet fg y x).getD (0, 0, 0)) (_bgcolors "default") i j) := by
  have hbg : resolveBackground obs none =
      some (specialsColors (np_pad_1201 sp)) := by
    simp only [resolveBackground, hsp, hcur]
  have hborder : ∀ y x, y < 24 → x < 80 →
      (y = 0 ∨ y = 22 ∨ y = 23 ∨ x = 79) →
      gridGet (specialsColors (np_pad_1201 sp)) y x =
        some (_bgcolors "default") := by
    intro y x hy hx hb
    unfold specialsColors
    rw [gridGet_map, np_pad_1201_border sp h21 h79 y x hy hx hb]
    have hdef : specialsMapAt (np_clip 0 0 255).toNat = _bgcolors "default" := by
      rw [show (np_clip 0 0 255).toNat = 0 from by decide,
        specialsMapAt_eq 0 (by omega),
        show get_special_background 0 = "default" from by decide]
    simp [hdef]
  have hbgc : Covers24x80 (specialsColors (np_pad_1201 sp)) := by
    obtain ⟨hl, hw⟩ := np_pad_1201_rows sp h21 h79
    refine covers_of_shape _ ?_ ?_
    · unfold specialsColors; rw [List.length_map, hl]
    · intro row hrow
      unfold specialsColors at hrow
      obtain ⟨r, hr, rfl⟩ := List.mem_map.mp hrow
      rw [List.length_map, hw r hr]
  obtain ⟨img, cache', h1, _, _, _, hpix⟩ := render_master font cache obs
    fgo none fg _ hcc hfg hbg hchars hfgc hbgc
  refine ⟨np_pad_1201_shape sp h21 h79, hbg, hborder, img, cache', h1, ?_⟩
  intro y x i j hy hx hi hj hb
  rw [hpix y x i j hy hx hi hj, hborder y x hy hx hb]
  rfl

/-- Witness for C3 on a concrete 21×79 all-corpse `specials` grid. -/
theorem claim_C3_witness :
    np_pad_1201 (List.replicate 21 (List.replicate 79 1)) =
      [List.replicate 80 0] ++
      (List.replicate 21 (List.replicate 79 (1 : Int))).map
        (fun row => row ++ [0]) ++
      [List.replicate 80 0, List.replicate 80 0] ∧
    resolveBackground obsSpecials none =
      some (specialsColors
        (np_pad_1201 (List.replicate 21 (List.replicate 79 1)))) ∧
    (∀ y x, y < 24 → x < 80 → (y = 0 ∨ y = 22 ∨ y = 23 ∨ x = 79) →
      gridGet (specialsColors
          (np_pad_1201 (List.replicate 21 (List.replicate 79 1)))) y x =
        some (_bgcolors "default")) ∧
    ∃ img cache',
      render fontBlack [] obsSpecials (some blackGrid) none =
        some (img, cache') ∧
      ∀ y x i j, y < 24 → x < 80 → i < 16 → j < 8 →
        (y = 0 ∨ y = 22 ∨ y = 23 ∨ x = 79) →
        gridGet img (y * 16 + i) (x * 8 + j) =
          some (fontBlack
            (Char.ofNat (represent_char
              (np_clip ((gridGet obsSpecials.tty_chars y x).getD 0) 0 255).toNat))
            ((gridGet blackGrid y x).getD (0, 0, 0))
            (_bgcolors "default") i j) :=
  claim_C3 fontBlack [] obsSpecials (some blackGrid) blackGrid
    (List.replicate 21 (List.replicate 79 1))
    (cacheConsistent_nil fontBlack) rfl rfl (by decide)
    (fun row hrow => by
      rw [List.eq_of_mem_replicate hrow]; decide)
    rfl
    (covers_replicate (65 : Int) 24 80 (by decide) (by decide))
    (covers_replicate ((0, 0, 0) : RGB) 24 80 (by decide) (by decide))

lemma renderRowCells_none (font : FontRender) (chars : Grid)
    (fg bg : ColorGrid) (y : Nat) (xs : List Nat) (x0 : Nat) (hx0 : x0 ∈ xs)
    (h : gridGet chars y x0 = none) :
    ∀ cache, renderRowCells font chars fg bg y xs cache = none := by
  induction xs with
  | nil => simp at hx0
  | cons x xs ih =>
    intro cache
    rcases List.mem_cons.mp hx0 with rfl | hmem
    · simp only [renderRowCells, h]
    · cases hc : gridGet chars y x with
      | none => simp only [renderRowCells, hc]
      | some c =>
        cases hf : gridGet fg y x with
        | none => simp only [renderRowCells, hc, hf]
        | some f =>
          cases hb : gridGet bg y x with
          | none => simp only [renderRowCells, hc, hf, hb]
          | some b =>
            simp only [renderRowCells, hc, hf, hb]
            rw [ih hmem _]

lemma renderRows_none (font : FontRender) (chars : Grid) (fg bg : ColorGrid)
    (ys : List Nat) (y0 : Nat) (hy0 : y0 ∈ ys) (x0 : Nat)
    (hx0 : x0 ∈ List.range 80) (h : gridGet chars y0 x0 = none) :
    ∀ cache, renderRows font chars fg bg ys cache = none := by
  induction ys with
  | nil => simp at hy0
  | cons y ys ih =>
    intro cache
    rcases List.mem_cons.mp hy0 with rfl | hmem
    · simp only [renderRows,
        renderRowCells_none font chars fg bg y0 (List.range 80) x0 hx0 h cache]
    · cases hrow : renderRowCells font chars fg bg y (List.range 80) cache with
      | none => simp only [renderRows, hrow]
      | some pc =>
        obtain ⟨ps, cache'⟩ := pc
        simp only [renderRows, hrow]
        rw [ih hmem cache']

/-- A character grid that does not cover some cell of the 24×80 region makes
`render` fail (numpy raises an `IndexError`). -/
lemma render_none_of_missing_cell (font : FontRender) (cache : TileCache)
    (obs : Obs) (fgo bgo : Option ColorGrid) (fg bg : ColorGrid)
    (hfg : resolveForeground obs fgo = some fg)
    (hbg : resolveBackground obs bgo = some bg)
    (y0 x0 : Nat) (hy0 : y0 < 24) (hx0 : x0 < 80)
    (h : gridGet obs.tty_chars y0 x0 = none) :
    render font cache obs fgo bgo = none := by
  have h' : gridGet (obs.tty_chars.map
      (fun row => row.map (fun v => np_clip v 0 255))) y0 x0 = none := by
    rw [gridGet_map, h]; rfl
  simp only [render, hfg, hbg,
    renderRows_none font _ fg bg (List.range 24) y0 (List.mem_range.mpr hy0)
      x0 (List.mem_range.mpr hx0) h' cache]

/-- C5 (amended): `render` performs no shape validation.  Grids that cover
the 24×80 region — even strictly larger ones — are accepted, and cells
outside the region are silently ignored; only a character grid too small to
cover the region makes `render` fail, with an undiscriminating index error
rather than a descriptive shape error. -/
theorem claim_C5 (font : FontRender) (cache : TileCache) (obs : Obs)
    (fgo bgo : Option ColorGrid) (fg bg : ColorGrid)
    (hfg : resolveForeground obs fgo = some fg)
    (hbg : resolveBackground obs bgo = some bg) :
    (CacheConsistent font cache → Covers24x80 obs.tty_chars →
      Covers24x80 fg → Covers24x80 bg →
      (render font cache obs fgo bgo).isSome = true) ∧
    (∀ y0 x0, y0 < 24 → x0 < 80 → gridGet obs.tty_chars y0 x0 = none →
      render font cache obs fgo bgo = none) := by
  constructor
  · intro hcc hchars hfgc hbgc
    obtain ⟨img, cache', h1, -⟩ := render_master font cache obs fgo bgo
      fg bg hcc hfg hbg hchars hfgc hbgc
    rw [h1]; rfl
  · intro y0 x0 hy0 hx0 h
    exact render_none_of_missing_cell font cache obs fgo bgo fg bg
      hfg hbg y0 x0 hy0 hx0 h

/-- Counterexample to C5 as stated: the character grid of `obsBig` has 25
rows, not the fixed 24, yet `render` succeeds (silently using only the
first 24 rows) instead of failing with a descriptive error. -/
theorem claim_C5_counterexample :
    obsBig.tty_chars.length = 25 ∧
    (∀ row ∈ obsBig.tty_chars, row.length = 80) ∧
    (render fontBlack [] obsBig (some blackGrid) (some blackGrid)).isSome
      = true := by
  refine ⟨by decide, by decide, ?_⟩
  obtain ⟨img, cache', h1, -⟩ := render_master fontBlack [] obsBig
    (some blackGrid) (some blackGrid) blackGrid blackGrid
    (cacheConsistent_nil fontBlack) rfl rfl
    (covers_replicate (65 : Int) 25 80 (by decide) (by decide))
    (covers_replicate ((0, 0, 0) : RGB) 24 80 (by decide) (by decide))
    (covers_replicate ((0, 0, 0) : RGB) 24 80 (by decide) (by decide))
  rw [h1]; rfl

/-- Witness for the amended C5: the oversized grid renders successfully and
the undersized grid makes `render` fail. -/
theorem claim_C5_witness :
    (render fontBlack [] obsBig (some blackGrid) (some blackGrid)).isSome
      = true ∧
    render fontBlack [] obsSmall (some blackGrid) (some blackGrid) = none :=
  ⟨(claim_C5 fontBlack [] obsBig (some blackGrid) (some blackGrid)
      blackGrid blackGrid rfl rfl).1 (cacheConsistent_nil fontBlack)
      (covers_replicate (65 : Int) 25 80 (by decide) (by decide))
      (covers_replicate ((0, 0, 0) : RGB) 24 80 (by decide) (by decide))
      (covers_replicate ((0, 0, 0) : RGB) 24 80 (by decide) (by decide)),
   (claim_C5 fontBlack [] obsSmall (some blackGrid) (some blackGrid)
      blackGrid blackGrid rfl rfl).2 23 0 (by decide) (by decide) (by decide)⟩

lemma renderRowCells_consistent (font : FontRender) (chars : Grid)
    (fg bg : ColorGrid) (y : Nat) (xs : List Nat) :
    ∀ (cache : TileCache) (ps : List Patch) (cache' : TileCache),
      CacheConsistent font cache →
      renderRowCells font chars fg bg y xs cache = some (ps, cache') →
      CacheConsistent font cache' := by
  induction xs with
  | nil =>
    intro cache ps cache' hcc h
    simp only [renderRowCells] at h
    obtain ⟨-, rfl⟩ := Prod.mk.injEq .. ▸ Option.some.inj h
    exact hcc
  | cons x xs ih =>
    intro cache ps cache' hcc h
    cases hc : gridGet chars y x with
    | none => rw [renderRowCells, hc] at h; simp at h
    | some c =>
      cases hf : gridGet fg y x with
      | none => rw [renderRowCells, hc, hf] at h; simp at h
      | some f =>
        cases hb : gridGet bg y x with
        | none => rw [renderRowCells, hc, hf, hb] at h; simp at h
        | some b =>
          simp only [renderRowCells, hc, hf, hb] at h
          obtain ⟨-, hccmid⟩ := _render_char_eq font cache
            (Char.ofNat (represent_char c.toNat)) f b hcc
          cases hr : renderRowCells font chars fg bg y xs
              (_render_char font cache
                (Char.ofNat (represent_char c.toNat)) f b).2.1 with
          | none => rw [hr] at h; simp at h
          | some pc =>
            obtain ⟨ps', c''⟩ := pc
            rw [hr] at h
            have h2 : c'' = cache' := congrArg Prod.snd (Option.some.inj h)
            subst h2
            exact ih _ ps' _ hccmid hr

lemma renderRowCells_map_fst (font : FontRender) (chars : Grid)
    (fg bg : ColorGrid) (y : Nat) (xs : List Nat) :
    ∀ (cache1 cache2 : TileCache), CacheConsistent font cache1 →
      CacheConsistent font cache2 →
      Option.map Prod.fst (renderRowCells font chars fg bg y xs cache1) =
        Option.map Prod.fst (renderRowCells font chars fg bg y xs cache2) := by
  induction xs with
  | nil => intro _ _ _ _; rfl
  | cons x xs ih =>
    intro cache1 cache2 h1 h2
    cases hc : gridGet chars y x with
    | none => simp only [renderRowCells, hc]
    | some c =>
      cases hf : gridGet fg y x with
      | none => simp only [renderRowCells, hc, hf]
      | some f =>
        cases hb : gridGet bg y x with
        | none => simp only [renderRowCells, hc, hf, hb]
        | some b =>
          obtain ⟨hv1, hcc1'⟩ := _render_char_eq font cache1
            (Char.ofNat (represent_char c.toNat)) f b h1
          obtain ⟨hv2, hcc2'⟩ := _render_char_eq font cache2
            (Char.ofNat (represent_char c.toNat)) f b h2
          have hrec := ih _ _ hcc1' hcc2'
          simp only [renderRowCells, hc, hf, hb]
          cases hr1 : renderRowCells font chars fg bg y xs
              (_render_char font cache1
                (Char.ofNat (represent_char c.toNat)) f b).2.1 with
          | none =>
            rw [hr1] at hrec
            cases hr2 : renderRowCells font chars fg bg y xs
                (_render_char font cache2
                  (Char.ofNat (represent_char c.toNat)) f b).2.1 with
            | none => rfl
            | some pc2 => rw [hr2] at hrec; simp at hrec
          | some pc1 =>
            rw [hr1] at hrec
            cases hr2 : renderRowCells font chars fg bg y xs
                (_render_char font cache2
                  (Char.ofNat (represent_char c.toNat)) f b).2.1 with
            | none => rw [hr2] at hrec; simp at hrec
            | some pc2 =>
              rw [hr2] at hrec
              obtain ⟨ps1, c1'⟩ := pc1
              obtain ⟨ps2, c2'⟩ := pc2
              have hps : ps1 = ps2 := by simpa using hrec
              subst hps
              simp only [Option.map_some', Option.some.injEq]
              rw [hv1, hv2]

lemma renderRows_map_fst (font : FontRender) (chars : Grid)
    (fg bg : ColorGrid) (ys : List Nat) :
    ∀ (cache1 cache2 : TileCache), CacheConsistent font cache1 →
      CacheConsistent font cache2 →
      Option.map Prod.fst (renderRows font chars fg bg ys cache1) =
        Option.map Prod.fst (renderRows font chars fg bg ys cache2) := by
  induction ys with
  | nil => intro _ _ _ _; rfl
  | cons y ys ih =>
    intro cache1 cache2 h1 h2
    have hrow := renderRowCells_map_fst font chars fg bg y (List.range 80)
      cache1 cache2 h1 h2
    cases hr1 : renderRowCells font chars fg bg y (List.range 80) cache1 with
    | none =>
      rw [hr1] at hrow
      cases hr2 : renderRowCells font chars fg bg y (List.range 80) cache2 with
      | none => simp only [renderRows, hr1, hr2]
      | some pc2 => rw [hr2] at hrow; simp at hrow
    | some pc1 =>
      rw [hr1] at hrow
      cases hr2 : renderRowCells font chars fg bg y (List.range 80) cache2 with
      | none => rw [hr2] at hrow; simp at hrow
      | some pc2 =>
        rw [hr2] at hrow
        obtain ⟨ps1, c1'⟩ := pc1
        obtain ⟨ps2, c2'⟩ := pc2
        have hps : ps1 = ps2 := by simpa using hrow
        subst hps
        have h1' := renderRowCells_consistent font chars fg bg y
          (List.range 80) cache1 ps1 c1' h1 hr1
        have h2' := renderRowCells_consistent font chars fg bg y
          (List.range 80) cache2 ps1 c2' h2 hr2
        have hrec := ih c1' c2' h1' h2'
        simp only [renderRows, hr1, hr2]
        cases hh1 : renderRows font chars fg bg ys c1' with
        | none =>
          rw [hh1] at hrec
          cases hh2 : renderRows font chars fg bg ys c2' with
          | none => rfl
          | some rc2 => rw [hh2] at hrec; simp at hrec
        | some rc1 =>
          rw [hh1] at hrec
          cases hh2 : renderRows font chars fg bg ys c2' with
          | none => rw [hh2] at hrec; simp at hrec
          | some rc2 =>
            rw [hh2] at hrec
            obtain ⟨rows1, d1⟩ := rc1
            obtain ⟨rows2, d2⟩ := rc2
            have hrows : rows1 = rows2 := by simpa using hrec
            subst hrows
            rfl

/-- The image produced by `render` does not depend on the accumulated tile
cache, as long as the cache is consistent with the font backend. -/
lemma render_map_fst (font : FontRender) (cache1 cache2 : TileCache)
    (obs : Obs) (fgo bgo : Option ColorGrid)
    (h1 : CacheConsistent font cache1) (h2 : CacheConsistent font cache2) :
    Option.map Prod.fst (render font cache1 obs fgo bgo) =
      Option.map Prod.fst (render font cache2 obs fgo bgo) := by
  cases hfg : resolveForeground obs fgo with
  | none => simp only [render, hfg]
  | some fg =>
    cases hbg : resolveBackground obs bgo with
    | none => simp only [render, hfg, hbg]
    | some bg =>
      have h := renderRows_map_fst font
        (obs.tty_chars.map (fun row => row.map (fun v => np_clip v 0 255)))
        fg bg (List.range 24) cache1 cache2 h1 h2
      simp only [render, hfg, hbg]
      cases hr1 : renderRows font
          (obs.tty_chars.map (fun row => row.map (fun v => np_clip v 0 255)))
          fg bg (List.range 24) cache1 with
      | none =>
        rw [hr1] at h
        cases hr2 : renderRows font
            (obs.tty_chars.map (fun row => row.map (fun v => np_clip v 0 255)))
            fg bg (List.range 24) cache2 with
        | none => rfl
        | some rc2 => rw [hr2] at h; simp at h
      | some rc1 =>
        rw [hr1] at h
        cases hr2 : renderRows font
            (obs.tty_chars.map (fun row => row.map (fun v => np_clip v 0 255)))
            fg bg (List.range 24) cache2 with
        | none => rw [hr2] at h; simp at h
        | some rc2 =>
          rw [hr2] at h
          obtain ⟨rows1, d1⟩ := rc1
          obtain ⟨rows2, d2⟩ := rc2
          have hrows : rows1 = rows2 := by simpa using h
          subst hrows
          rfl

/-- C6: rasterizing the same (character, foreground, background) triple a
second time returns the identical bitmap from the cache without invoking the
backend, and the image `render` returns is a pure function of its explicit
inputs, unchanged by the accumulated cache state. -/
theorem claim_C6 :
    (∀ (font : FontRender) (cache : TileCache) (c : Char) (a b : RGB),
      _render_char font (_render_char font cache c a b).2.1 c a b =
        ((_render_char font cache c a b).1,
         (_render_char font cache c a b).2.1, false)) ∧
    (∀ (font : FontRender) (cache1 cache2 : TileCache) (obs : Obs)
        (fgo bgo : Option ColorGrid),
      CacheConsistent font cache1 → CacheConsistent font cache2 →
      Option.map Prod.fst (render font cache1 obs fgo bgo) =
        Option.map Prod.fst (render font cache2 obs fgo bgo)) := by
  constructor
  · intro font cache c a b
    cases hfind : cache.find? (fun e => e.1 == ((c, a, b) : TileKey)) with
    | some e => simp only [_render_char, hfind]
    | none =>
      simp only [_render_char, hfind]
      rw [List.find?_cons_of_pos _ (by simp)]
  · intro font cache1 cache2 obs fgo bgo h1 h2
    exact render_map_fst font cache1 cache2 obs fgo bgo h1 h2

lemma cacheDemo_consistent : CacheConsistent fontBlack cacheDemo := by
  intro e he
  rw [List.mem_singleton.mp he]

/-- Witness for C6: a repeated rasterization of `'A'` on concrete colors,
and `render` on a concrete observation from the empty cache and from
`cacheDemo`. -/
theorem claim_C6_witness :
    _render_char fontBlack
        (_render_char fontBlack [] 'A' (0, 0, 0) (0, 0, 0)).2.1
        'A' (0, 0, 0) (0, 0, 0) =
      ((_render_char fontBlack [] 'A' (0, 0, 0) (0, 0, 0)).1,
       (_render_char fontBlack [] 'A' (0, 0, 0) (0, 0, 0)).2.1, false) ∧
    Option.map Prod.fst
        (render fontBlack [] obsPlain (some blackGrid) (some blackGrid)) =
      Option.map Prod.fst
        (render fontBlack cacheDemo obsPlain (some blackGrid)
          (some blackGrid)) :=
  ⟨claim_C6.1 fontBlack [] 'A' (0, 0, 0) (0, 0, 0),
   claim_C6.2 fontBlack [] cacheDemo obsPlain (some blackGrid)
     (some blackGrid) (cacheConsistent_nil fontBlack) cacheDemo_consistent⟩

